import Mathlib

/-!
Shallow embedding of `src/gpt_decorators/gpt_callable_func.py`.

The file under verification builds, from a Python callable's signature, a
JSON-schema-like description (`gpt_func`) and wraps the callable in a
pass-through wrapper (`_Wrapper` / `_AsyncWrapper`).  The embedding below
models, straight from the source:

* `inspect.Parameter` metadata as `Param` (name, kind, declared
  annotation, default-or-empty);
* the annotation universe the source inspects at runtime as `PyAnn`:
  a plain class (`type(ann) is type` holds), an Enum class, a pydantic
  `FieldInfo`, a `typing.Annotated` alias with one metadata entry, a
  `typing.Literal` of strings, or the `inspect.Parameter.empty` sentinel
  (itself a class, so `type(empty) is type` also holds);
* `_convert_params_to_schema` as `convertParamsToSchema`, with its loop as
  `convertLoop`.  Python truthiness, set membership (including the
  `TypeError` raised by `x in None`), the in-place growth of
  `required_params`, and the final `schema["required"] = required_params`
  / `schema.pop("title", None)` mutations are reproduced exactly;
* the Python runtime value that `_convert_params_to_schema` leaves in the
  schema dict as `PyObj`, distinguishing JSON lists from Python sets, so
  that JSON-serializability of the result can be stated;
* `_convert_to_gpt_func`, `_Wrapper.__init__` / `__call__` and
  `_AsyncWrapper.__call__` as `convertToGptFunc`, `mkWrapper` /
  `Wrapper.call` and `mkAsyncWrapper` / `AsyncWrapper.call`, with an
  awaitable modelled as a suspended computation forced by `awaitP`.

Python exceptions are modelled by `Except PyErr`; raising propagates, so a
`.error` result means construction stopped at the raise site with no schema
built.
-/

namespace GptDecorators

/-- The three exception classes the analyzed code can raise while building a
schema: `ValueError` (overlapping include/exclude), `AttributeError`
(include names an unknown parameter), `TypeError` (membership test against
`None`, from `p_name not in required_params` or `p_name not in exclude`). -/
inductive PyErr where
  | valueError
  | attributeError
  | typeError
deriving DecidableEq

/-- The kinds of `inspect.Parameter` relevant to the source. -/
inductive ParamKind where
  | positionalOnly
  | positionalOrKeyword
  | keywordOnly
  | varPositional
  | varKeyword
deriving DecidableEq

/-- Python runtime values usable as parameter defaults in this model. -/
inductive PyVal where
  | intV (n : Int)
  | strV (s : String)
  | boolV (b : Bool)
  | noneV
deriving DecidableEq

/-- The metadata slot of a `typing.Annotated[base, meta]` alias as the source
reads it: either a string (used verbatim as the description) or a tuple,
of which the source keeps `str(meta[0])` (stored here already rendered). -/
inductive PyMeta where
  | strM (s : String)
  | tupleM (first : String)
deriving DecidableEq

/-- The declared annotations the source distinguishes at runtime.
`cls` stands for any plain class (`type(ann) is type` is `True`), `empty`
for the `inspect.Parameter.empty` sentinel class (for which that test is
also `True`), `enum` for an `EnumMeta` instance carrying its member names
in definition order, `fieldInfo` for a pydantic `FieldInfo` used as
annotation, `annotated` for a `typing.Annotated` alias with exactly one
metadata entry, and `literalStr` for a `typing.Literal` of strings. -/
inductive PyAnn where
  | empty
  | cls (name : String)
  | enum (members : List String)
  | literalStr (choices : List String)
  | fieldInfo (d : Option PyVal) (desc : Option String) (ann : PyAnn)
  | annotated (base : PyAnn) (m : PyMeta)
deriving DecidableEq

/-- The source's receiver test `type(p.annotation) is type`: true exactly for
plain classes and for the `inspect.Parameter.empty` sentinel. -/
def PyAnn.isType : PyAnn → Bool
  | .empty => true
  | .cls _ => true
  | _ => false

/-- One entry of `inspect.signature(func).parameters`, in declaration order.
`default = none` models `inspect.Parameter.empty` (no default). -/
structure Param where
  name : String
  kind : ParamKind
  ann : PyAnn
  default : Option PyVal
deriving DecidableEq

/-- What the source keeps from a `typing.Annotated` metadata entry:
the string itself, or `str(first)` of a tuple. -/
def PyMeta.render : PyMeta → String
  | .strM s => s
  | .tupleM f => f

/-- The `(annotation, Field(default=..., description=...))` tuple the loop
body of `_convert_params_to_schema` stores in `properties[p_name]`.
`default = none` models pydantic's required marker `...`. -/
structure Property where
  ann : PyAnn
  default : Option PyVal
  desc : Option String
deriving DecidableEq

/-- The annotation-processing part of the loop body of
`_convert_params_to_schema`: pydantic `FieldInfo` annotations contribute
their own embedded default, description and inner type; otherwise an
`Annotated` alias is unpacked into base type plus description, and an
Enum class is converted to a `Literal` of its member names. -/
def emitProperty (p : Param) : Property :=
  match p.ann with
  | .fieldInfo d desc a => ⟨a, d, desc⟩
  | a0 =>
    let s :=
      match a0 with
      | .annotated base m => (base, some (PyMeta.render m))
      | a => (a, (none : Option String))
    let a1 :=
      match s.1 with
      | .enum ms => PyAnn.literalStr ms
      | a => a
    ⟨a1, p.default, s.2⟩

/-- The skip tests at the top of the loop of `_convert_params_to_schema`:
a first parameter (`idx = 0`) named exactly `self` or `cls` whose
annotation is a class is an implicit receiver; variadic positional or
keyword collectors are never representable. -/
def skipParam (idx : Nat) (p : Param) : Bool :=
  (idx == 0 && (p.name == "self" || p.name == "cls") && PyAnn.isType p.ann)
  || p.kind == ParamKind.varPositional
  || p.kind == ParamKind.varKeyword

/-- The `for idx, (p_name, p) in enumerate(parameters.items())` loop of
`_convert_params_to_schema`.  The accumulator `acc` is the `properties`
dict in insertion order; `req` is `required_params`, which starts as the
caller's `include` argument (possibly `None`) and grows by `add`.  A
defaultless parameter is tested with `p_name not in required_params` and
then `p_name not in exclude`; when the tested object is `None`, Python
raises `TypeError`, modelled by `.error .typeError`.  The `properties`
entry is stored after the required-set step, unconditionally. -/
def convertLoop (exc : Option (List String)) :
    Nat → List Param → Option (List String) → List (String × Property) →
    Except PyErr (List (String × Property) × Option (List String))
  | _, [], req, acc => .ok (acc, req)
  | idx, p :: rest, req, acc =>
    if skipParam idx p then
      convertLoop exc (idx + 1) rest req acc
    else if p.default.isSome then
      convertLoop exc (idx + 1) rest req (acc ++ [(p.name, emitProperty p)])
    else
      match req with
      | none => .error .typeError
      | some rp =>
        if rp.contains p.name then
          convertLoop exc (idx + 1) rest (some rp)
            (acc ++ [(p.name, emitProperty p)])
        else
          match exc with
          | none => .error .typeError
          | some ex =>
            if ex.contains p.name then
              convertLoop exc (idx + 1) rest (some rp)
                (acc ++ [(p.name, emitProperty p)])
            else
              convertLoop exc (idx + 1) rest (some (rp ++ [p.name]))
                (acc ++ [(p.name, emitProperty p)])

/-- The guard `if include and exclude and set.intersection(include, exclude)`:
truthy means both sets are non-`None` and non-empty and share a member. -/
def overlapCheck (inc exc : Option (List String)) : Bool :=
  match inc, exc with
  | some i, some e => !i.isEmpty && !e.isEmpty && i.any (fun x => e.contains x)
  | _, _ => false

/-- What `_convert_params_to_schema` returns after its final mutations:
the generated model's `properties` (in insertion order) and the object
stored by `schema["required"] = required_params` — the `include` set grown
in place, hence still `None` when `include` was `None` and no parameter
ever reached the `add`. The synthetic `title` key is already popped. -/
structure SchemaResult where
  properties : List (String × Property)
  required : Option (List String)
deriving DecidableEq

/-- `_convert_params_to_schema`: the overlap guard, then the loop
`for each in (include or set())` checking that every include name is a key
of `parameters` (first failure raises `AttributeError`), then the main
loop starting from `required_params = include`, and finally the schema
with `required` overwritten and `title` popped. -/
def convertParamsToSchema (params : List Param)
    (inc exc : Option (List String)) : Except PyErr SchemaResult :=
  if overlapCheck inc exc then .error .valueError
  else
    match (inc.getD []).find? (fun x => !(params.any (fun p => p.name == x))) with
    | some _ => .error .attributeError
    | none =>
      match convertLoop exc 0 params inc [] with
      | .error e => .error e
      | .ok (props, req) => .ok ⟨props, req⟩

/-- The metadata of a Python callable that `_convert_to_gpt_func` reads:
`__name__`, `__doc__` (None when absent) and its signature's parameters. -/
structure FuncMeta where
  name : String
  doc : Option String
  params : List Param

/-- Python `a or b` on an optional string: `None` and `""` are falsy. -/
def pyOrStr (o : Option String) (d : String) : String :=
  match o with
  | some s => if s.isEmpty then d else s
  | none => d

/-- The dict `_convert_to_gpt_func` returns: function name, the description
fallback chain, and the parameters schema. -/
structure GptFunc where
  name : String
  desc : String
  parameters : SchemaResult
deriving DecidableEq

/-- `_convert_to_gpt_func`: `doc = description or (func.__doc__ or func_name)`
and the schema of the signature's parameters; any exception from
`_convert_params_to_schema` propagates. -/
def convertToGptFunc (m : FuncMeta) (d : Option String)
    (inc exc : Option (List String)) : Except PyErr GptFunc :=
  match convertParamsToSchema m.params inc exc with
  | .error e => .error e
  | .ok ps => .ok ⟨m.name, pyOrStr d (pyOrStr m.doc m.name), ps⟩

/-- `_Wrapper`: the wrapped callable (its call behaviour, as a function from
an argument tuple to a result or a raised exception) plus the attached
`gpt_func` schema built once at construction. -/
structure Wrapper (α β : Type) where
  func : α → Except PyErr β
  gpt_func : GptFunc

/-- `_Wrapper.__init__`: builds `gpt_func` eagerly; a raise inside
`_convert_to_gpt_func` propagates, so no wrapper is constructed. -/
def mkWrapper {α β : Type} (m : FuncMeta) (f : α → Except PyErr β)
    (d : Option String) (inc exc : Option (List String)) :
    Except PyErr (Wrapper α β) :=
  match convertToGptFunc m d inc exc with
  | .error e => .error e
  | .ok g => .ok ⟨f, g⟩

/-- `_Wrapper.__call__`: `return self.func(*args, **kwargs)`. -/
def Wrapper.call {α β : Type} (w : Wrapper α β) (a : α) : Except PyErr β :=
  w.func a

/-- A pending awaitable: a suspended computation forced by awaiting. -/
def Pending (β : Type) : Type := Unit → Except PyErr β

/-- Awaiting a pending computation forces it. -/
def awaitP {β : Type} (p : Pending β) : Except PyErr β := p ()

/-- `_AsyncWrapper`: like `_Wrapper`, but the wrapped callable is a
coroutine function — calling it yields a pending awaitable. -/
structure AsyncWrapper (α β : Type) where
  func : α → Pending β
  gpt_func : GptFunc

/-- `_AsyncWrapper.__init__` (inherited from `_Wrapper`). -/
def mkAsyncWrapper {α β : Type} (m : FuncMeta) (f : α → Pending β)
    (d : Option String) (inc exc : Option (List String)) :
    Except PyErr (AsyncWrapper α β) :=
  match convertToGptFunc m d inc exc with
  | .error e => .error e
  | .ok g => .ok ⟨f, g⟩

/-- `_AsyncWrapper.__call__`: `return await self.func(*args, **kwargs)` —
calling produces a coroutine that, once awaited, awaits the underlying
coroutine and yields its result. -/
def AsyncWrapper.call {α β : Type} (w : AsyncWrapper α β) (a : α) :
    Pending β :=
  fun _ => awaitP (w.func a)

/-- The keys of the `properties` dict of a schema result. -/
def propKeys (r : SchemaResult) : List String :=
  r.properties.map Prod.fst

/-- Membership in an optional name set; `none` contains nothing. -/
def memOpt (x : String) (o : Option (List String)) : Bool :=
  (o.getD []).contains x

/-- Membership of a name in the `required` object of a schema result. -/
def requiredContains (r : SchemaResult) (x : String) : Bool :=
  memOpt x r.required

/-- The analyzed (non-skipped) parameters starting at enumeration index
`idx`, each paired with the property entry the loop stores for it. -/
def analyzedFrom : Nat → List Param → List (String × Property)
  | _, [] => []
  | idx, p :: rest =>
    if skipParam idx p then analyzedFrom (idx + 1) rest
    else (p.name, emitProperty p) :: analyzedFrom (idx + 1) rest

/-- True when some parameter from enumeration index `idx` on survives the
skip tests and lacks a default value. -/
def hasRequiredAnalyzedFrom : Nat → List Param → Bool
  | _, [] => false
  | idx, p :: rest =>
    (!skipParam idx p && p.default.isNone)
    || hasRequiredAnalyzedFrom (idx + 1) rest

/-- True when some parameter of the signature survives the skip tests and
lacks a default value. -/
def hasRequiredAnalyzed (params : List Param) : Bool :=
  hasRequiredAnalyzedFrom 0 params

/-- The Python runtime objects that can sit inside the schema dict after
`_convert_params_to_schema` finishes.  The distinction between a JSON
`list` and a Python `set` matters: `schema["required"] = required_params`
stores the Python set object itself (or `None`). -/
inductive PyObj where
  | pstr (s : String)
  | pint (n : Int)
  | pbool (b : Bool)
  | pnone
  | plist (xs : List PyObj)
  | pdict (xs : List (String × PyObj))
  | pset (xs : List String)

/-- `json.dumps` succeeds exactly on strings, numbers, booleans, `None`,
lists of serializable objects and string-keyed dicts of serializable
values; a Python `set` is not JSON-serializable. -/
def jsonSerializable : PyObj → Bool
  | .pstr _ => true
  | .pint _ => true
  | .pbool _ => true
  | .pnone => true
  | .plist [] => true
  | .plist (x :: xs) => jsonSerializable x && jsonSerializable (.plist xs)
  | .pdict [] => true
  | .pdict ((_, v) :: xs) => jsonSerializable v && jsonSerializable (.pdict xs)
  | .pset _ => false

/-- A Python default value as it appears inside the generated JSON schema. -/
def pyValToObj : PyVal → PyObj
  | .intV n => .pint n
  | .strV s => .pstr s
  | .boolV b => .pbool b
  | .noneV => .pnone

/-- Models, at the granularity these claims need, the JSON object pydantic
emits for one generated model field (pydantic is an external library; its
exact inner keys are not re-verified here): a plain JSON object holding a
type rendering — an `enum` list of choices for a `Literal` of strings —
plus the field's default and description when present.  What matters for
the development is that the value is an ordinary JSON object built from
the `(annotation, Field(...))` tuple the source stores. -/
def annJson : PyAnn → List (String × PyObj)
  | .literalStr cs => [("enum", .plist (cs.map PyObj.pstr)), ("type", .pstr "string")]
  | .cls n => [("type", .pstr n)]
  | _ => [("type", .pstr "object")]

/-- The JSON object for one `properties` entry; see `annJson`. -/
def propertyToObj (pr : Property) : PyObj :=
  .pdict (annJson pr.ann
    ++ (match pr.default with
        | some v => [("default", pyValToObj v)]
        | none => [])
    ++ (match pr.desc with
        | some s => [("description", .pstr s)]
        | none => []))

/-- The object stored under `"required"`: the grown `include` set itself,
a Python set — or `None` when `include` was `None` and no parameter ever
reached the `add` call. -/
def requiredToObj : Option (List String) → PyObj
  | none => .pnone
  | some l => .pset l

/-- The schema dict as `_convert_params_to_schema` returns it: pydantic's
object schema for the generated model, with the synthetic top-level
`title` popped and `required` overwritten by the Python set
`required_params`. -/
def schemaToObj (r : SchemaResult) : PyObj :=
  .pdict
    [("properties", .pdict (r.properties.map (fun kv => (kv.1, propertyToObj kv.2)))),
     ("type", .pstr "object"),
     ("required", requiredToObj r.required)]

/-- Key lookup in a Python dict object. -/
def lookupKey (k : String) : PyObj → Option PyObj
  | .pdict xs => xs.lookup k
  | _ => none

/-- Whether a Python object is a JSON list. -/
def isPyList : PyObj → Bool
  | .plist _ => true
  | _ => false

/-! ### Structural lemmas about the analyzer loop -/

/-- On success, the `properties` dict built by the loop is the starting
accumulator followed by one entry per analyzed (non-skipped) parameter,
in declaration order. -/
theorem convertLoop_props {exc : Option (List String)} :
    ∀ (ps : List Param) (idx : Nat) (req : Option (List String))
      (acc props : List (String × Property)) (reqF : Option (List String)),
      convertLoop exc idx ps req acc = .ok (props, reqF) →
      props = acc ++ analyzedFrom idx ps := by
  intro ps
  induction ps with
  | nil =>
    intro idx req acc props reqF h
    simp only [convertLoop, Except.ok.injEq, Prod.mk.injEq] at h
    simp [analyzedFrom, h.1]
  | cons p rest ih =>
    intro idx req acc props reqF h
    simp only [convertLoop] at h
    by_cases hs : skipParam idx p
    · rw [if_pos hs] at h
      simpa [analyzedFrom, hs] using ih (idx + 1) req acc props reqF h
    · rw [if_neg hs] at h
      by_cases hd : p.default.isSome
      · rw [if_pos hd] at h
        have := ih (idx + 1) req (acc ++ [(p.name, emitProperty p)]) props reqF h
        simp [analyzedFrom, hs, this]
      · rw [if_neg hd] at h
        cases req with
        | none => simp at h
        | some rp =>
          dsimp only at h
          by_cases hc : rp.contains p.name
          · rw [if_pos hc] at h
            have := ih (idx + 1) (some rp)
              (acc ++ [(p.name, emitProperty p)]) props reqF h
            simp [analyzedFrom, hs, this]
          · rw [if_neg hc] at h
            cases exc with
            | none => simp at h
            | some ex =>
              dsimp only at h
              by_cases he : ex.contains p.name
              · rw [if_pos he] at h
                have := ih (idx + 1) (some rp)
                  (acc ++ [(p.name, emitProperty p)]) props reqF h
                simp [analyzedFrom, hs, this]
              · rw [if_neg he] at h
                have := ih (idx + 1) (some (rp ++ [p.name]))
                  (acc ++ [(p.name, emitProperty p)]) props reqF h
                simp [analyzedFrom, hs, this]

/-- The loop never adds an excluded name to the required set: a name in
`exclude` that is absent from the incoming required set is absent from the
final one. -/
theorem convertLoop_req_excluded {ex : List String} :
    ∀ (ps : List Param) (idx : Nat) (req : Option (List String))
      (acc props : List (String × Property)) (reqF : Option (List String))
      (x : String),
      convertLoop (some ex) idx ps req acc = .ok (props, reqF) →
      memOpt x req = false → x ∈ ex → memOpt x reqF = false := by
  intro ps
  induction ps with
  | nil =>
    intro idx req acc props reqF x h hreq hex
    simp only [convertLoop, Except.ok.injEq, Prod.mk.injEq] at h
    rw [← h.2]; exact hreq
  | cons p rest ih =>
    intro idx req acc props reqF x h hreq hex
    simp only [convertLoop] at h
    by_cases hs : skipParam idx p
    · rw [if_pos hs] at h
      exact ih (idx + 1) req acc props reqF x h hreq hex
    · rw [if_neg hs] at h
      by_cases hd : p.default.isSome
      · rw [if_pos hd] at h
        exact ih (idx + 1) req _ props reqF x h hreq hex
      · rw [if_neg hd] at h
        cases req with
        | none => simp at h
        | some rp =>
          dsimp only at h
          by_cases hc : rp.contains p.name
          · rw [if_pos hc] at h
            exact ih (idx + 1) (some rp) _ props reqF x h hreq hex
          · rw [if_neg hc] at h
            by_cases he : ex.contains p.name
            · rw [if_pos he] at h
              exact ih (idx + 1) (some rp) _ props reqF x h hreq hex
            · rw [if_neg he] at h
              refine ih (idx + 1) (some (rp ++ [p.name])) _ props reqF x h ?_ hex
              simp only [memOpt, Option.getD_some] at hreq ⊢
              simp only [List.contains_eq_any_beq] at hreq ⊢
              simp only [List.any_append, Bool.or_eq_false_iff]
              refine ⟨hreq, ?_⟩
              simp only [List.any_cons, List.any_nil, Bool.or_false]
              have hne : p.name ≠ x := by
                intro hxe
                apply he
                rw [hxe]
                simpa using hex
              simp only [beq_eq_false_iff_ne, ne_eq]
              exact fun hh => hne hh.symm

/-- Every name in the loop's final required set either was already in the
incoming required set or names an analyzed parameter (and hence a key the
loop simultaneously stored in `properties`). -/
theorem convertLoop_req_origin {exc : Option (List String)} :
    ∀ (ps : List Param) (idx : Nat) (req : Option (List String))
      (acc props : List (String × Property)) (reqF : Option (List String))
      (x : String),
      convertLoop exc idx ps req acc = .ok (props, reqF) →
      memOpt x reqF = true →
      memOpt x req = true ∨ x ∈ (analyzedFrom idx ps).map Prod.fst := by
  intro ps
  induction ps with
  | nil =>
    intro idx req acc props reqF x h hreq
    simp only [convertLoop, Except.ok.injEq, Prod.mk.injEq] at h
    rw [h.2]; exact Or.inl hreq
  | cons p rest ih =>
    intro idx req acc props reqF x h hreq
    simp only [convertLoop] at h
    by_cases hs : skipParam idx p
    · rw [if_pos hs] at h
      simpa [analyzedFrom, hs] using ih (idx + 1) req acc props reqF x h hreq
    · rw [if_neg hs] at h
      by_cases hd : p.default.isSome
      · rw [if_pos hd] at h
        rcases ih (idx + 1) req _ props reqF x h hreq with h1 | h1
        · exact Or.inl h1
        · right; simp [analyzedFrom, hs]; right; simpa using h1
      · rw [if_neg hd] at h
        cases req with
        | none => simp at h
        | some rp =>
          dsimp only at h
          by_cases hc : rp.contains p.name
          · rw [if_pos hc] at h
            rcases ih (idx + 1) (some rp) _ props reqF x h hreq with h1 | h1
            · exact Or.inl h1
            · right; simp [analyzedFrom, hs]; right; simpa using h1
          · rw [if_neg hc] at h
            cases exc with
            | none => simp at h
            | some ex =>
              dsimp only at h
              by_cases he : ex.contains p.name
              · rw [if_pos he] at h
                rcases ih (idx + 1) (some rp) _ props reqF x h hreq with h1 | h1
                · exact Or.inl h1
                · right; simp [analyzedFrom, hs]; right; simpa using h1
              · rw [if_neg he] at h
                rcases ih (idx + 1) (some (rp ++ [p.name])) _ props reqF x h hreq
                  with h1 | h1
                · simp only [memOpt, Option.getD_some] at h1 ⊢
                  have : x ∈ rp ++ [p.name] := by simpa using h1
                  rcases List.mem_append.mp this with h2 | h2
                  · exact Or.inl (by simpa using h2)
                  · right
                    have : x = p.name := by simpa using h2
                    simp [analyzedFrom, hs, this]
                · right; simp [analyzedFrom, hs]; right; simpa using h1

/-- Every analyzed-parameter key names a declared parameter. -/
theorem analyzedFrom_names :
    ∀ (ps : List Param) (idx : Nat) (x : String),
      x ∈ (analyzedFrom idx ps).map Prod.fst → x ∈ ps.map Param.name := by
  intro ps
  induction ps with
  | nil => intro idx x h; simp [analyzedFrom] at h
  | cons p rest ih =>
    intro idx x h
    by_cases hs : skipParam idx p
    · simp only [analyzedFrom, if_pos hs] at h
      simpa using Or.inr (ih (idx + 1) x h)
    · simp only [analyzedFrom, if_neg hs] at h
      rcases (by simpa using h : x = p.name ∨
          x ∈ (analyzedFrom (idx + 1) rest).map Prod.fst) with h1 | h1
      · simp [h1]
      · simpa using Or.inr (ih (idx + 1) x h1)

/-- A parameter that the skip tests can never hit contributes its entry to
the analyzed list at every starting index. -/
theorem mem_analyzedFrom :
    ∀ (ps : List Param) (idx : Nat) (p : Param),
      p ∈ ps → (∀ i, skipParam i p = false) →
      (p.name, emitProperty p) ∈ analyzedFrom idx ps := by
  intro ps
  induction ps with
  | nil => intro idx p h; cases h
  | cons q rest ih =>
    intro idx p hmem hskip
    rcases List.mem_cons.mp hmem with h1 | h1
    · subst h1
      simp [analyzedFrom, hskip idx]
    · by_cases hs : skipParam idx q
      · simpa [analyzedFrom, hs] using ih (idx + 1) p h1 hskip
      · simp only [analyzedFrom, if_neg hs]
        exact List.mem_cons_of_mem _ (ih (idx + 1) p h1 hskip)

/-- With `required_params = None`, the loop raises `TypeError` as soon as it
reaches an analyzed parameter without a default value. -/
theorem convertLoop_none_typeError {exc : Option (List String)} :
    ∀ (ps : List Param) (idx : Nat) (acc : List (String × Property)),
      hasRequiredAnalyzedFrom idx ps = true →
      convertLoop exc idx ps none acc = .error .typeError := by
  intro ps
  induction ps with
  | nil => intro idx acc h; simp [hasRequiredAnalyzedFrom] at h
  | cons p rest ih =>
    intro idx acc h
    simp only [hasRequiredAnalyzedFrom] at h
    by_cases hs : skipParam idx p
    · simp only [convertLoop, if_pos hs]
      apply ih
      simpa [hs] using h
    · simp only [convertLoop, if_neg hs]
      by_cases hd : p.default.isSome
      · rw [if_pos hd]
        apply ih
        have hnone : p.default.isNone = false := by
          rcases Option.isSome_iff_exists.mp hd with ⟨v, hv⟩
          simp [hv]
        simpa [hs, hnone] using h
      · rw [if_neg hd]

/-- Inversion of a successful `_convert_params_to_schema` run: the overlap
guard was falsy, every include name is a declared parameter, and the loop
produced exactly the returned properties and required set. -/
theorem convert_ok_inv {ps : List Param} {inc exc : Option (List String)}
    {r : SchemaResult} (h : convertParamsToSchema ps inc exc = .ok r) :
    overlapCheck inc exc = false ∧
    (∀ x ∈ inc.getD [], ps.any (fun p => p.name == x) = true) ∧
    convertLoop exc 0 ps inc [] = .ok (r.properties, r.required) := by
  unfold convertParamsToSchema at h
  by_cases ho : overlapCheck inc exc
  · rw [if_pos ho] at h; simp at h
  · rw [if_neg ho] at h
    refine ⟨by simpa using ho, ?_, ?_⟩
    · cases hf : (inc.getD []).find? (fun x => !(ps.any (fun p => p.name == x))) with
      | some y => rw [hf] at h; simp at h
      | none =>
        intro x hx
        have := List.find?_eq_none.mp hf x hx
        simpa using this
    · cases hf : (inc.getD []).find? (fun x => !(ps.any (fun p => p.name == x))) with
      | some y => rw [hf] at h; simp at h
      | none =>
        rw [hf] at h
        cases hl : convertLoop exc 0 ps inc [] with
        | error e => rw [hl] at h; simp at h
        | ok pr =>
          rw [hl] at h
          cases pr with
          | mk props req =>
            dsimp only at h
            cases h
            rfl

/-- An exception from `_convert_params_to_schema` propagates unchanged
through `_convert_to_gpt_func` and both wrapper constructors: the
decorator application fails with that exception and no wrapper exists. -/
theorem mkWrapper_error {α β γ δ : Type} {m : FuncMeta} {e : PyErr}
    (f : α → Except PyErr β) (g : γ → Pending δ) (d : Option String)
    {inc exc : Option (List String)}
    (h : convertParamsToSchema m.params inc exc = .error e) :
    mkWrapper m f d inc exc = .error e ∧
    mkAsyncWrapper m g d inc exc = .error e := by
  constructor <;> simp [mkWrapper, mkAsyncWrapper, convertToGptFunc, h]

/-- JSON-serializability of a dict object is serializability of each value. -/
theorem jsonSerializable_pdict :
    ∀ (xs : List (String × PyObj)),
      jsonSerializable (.pdict xs) = xs.all (fun kv => jsonSerializable kv.2) := by
  intro xs
  induction xs with
  | nil => simp [jsonSerializable]
  | cons kv rest ih =>
    cases kv with
    | mk k v => simp [jsonSerializable, ih, List.all_cons]

/-- A JSON list of strings is serializable. -/
theorem jsonSerializable_pstr_list :
    ∀ (cs : List String), jsonSerializable (.plist (cs.map PyObj.pstr)) = true := by
  intro cs
  induction cs with
  | nil => simp [jsonSerializable]
  | cons c rest ih => simp [jsonSerializable, ih]

/-- Every generated `properties` entry is an ordinary JSON object. -/
theorem propertyToObj_serializable (pr : Property) :
    jsonSerializable (propertyToObj pr) = true := by
  unfold propertyToObj
  rw [jsonSerializable_pdict]
  simp only [List.all_append, Bool.and_eq_true, List.all_eq_true]
  refine ⟨⟨?_, ?_⟩, ?_⟩
  · intro kv hkv
    cases hann : pr.ann <;> rw [hann] at hkv <;> simp [annJson] at hkv <;>
      first
        | (rcases hkv with h1 | h1 <;> simp [h1, jsonSerializable,
            jsonSerializable_pstr_list])
        | simp [hkv, jsonSerializable]
  · intro kv hkv
    cases hdef : pr.default with
    | none => rw [hdef] at hkv; simp at hkv
    | some v =>
      rw [hdef] at hkv
      simp at hkv
      cases v <;> simp [hkv, pyValToObj, jsonSerializable]
  · intro kv hkv
    cases hdesc : pr.desc with
    | none => rw [hdesc] at hkv; simp at hkv
    | some s =>
      rw [hdesc] at hkv
      simp at hkv
      simp [hkv, jsonSerializable]

/-- If the overlap guard was falsy and `ex` is a non-`None` exclude set, a
member of `ex` cannot be in the include set. -/
theorem overlap_false_not_mem {inc : Option (List String)} {ex : List String}
    {x : String} (ho : overlapCheck inc (some ex) = false) (hx : x ∈ ex) :
    memOpt x inc = false := by
  cases inc with
  | none => rfl
  | some l =>
    cases l with
    | nil => rfl
    | cons a t =>
      simp only [overlapCheck] at ho
      by_contra hmem
      rw [Bool.not_eq_false] at hmem
      have hxl : x ∈ a :: t := by simpa [memOpt] using hmem
      have h1 : (a :: t).isEmpty = false := rfl
      have h2 : ex.isEmpty = false := by
        cases ex with
        | nil => cases hx
        | cons b u => rfl
      have h3 : (a :: t).any (fun y => ex.contains y) = true :=
        List.any_eq_true.mpr ⟨x, hxl, by simpa using hx⟩
      rw [h1, h2, h3] at ho
      simp at ho

/-- With `include = None` and `exclude = None`, `_convert_params_to_schema`
raises `TypeError` whenever some analyzed parameter lacks a default. -/
theorem convert_none_none_typeError {ps : List Param}
    (h : hasRequiredAnalyzed ps = true) :
    convertParamsToSchema ps none none = .error .typeError := by
  have hl := @convertLoop_none_typeError none ps 0 [] h
  simp [convertParamsToSchema, overlapCheck, hl]

/-! ### C1 -/

/-- C1, counterexample: for `def f(b=1)` wrapped with `exclude = set(b)`
(and `include` left `None`), the claim says `b` appears neither in
`properties` nor in `required`; but the analyzer only keeps `b` out of
`required` — `b` is still emitted as a `properties` key, because the
loop stores a `properties` entry for every non-skipped parameter
regardless of `exclude`. -/
theorem c1_counterexample :
    convertParamsToSchema [⟨"b", .positionalOrKeyword, .cls "int", some (.intV 1)⟩]
      none (some ["b"])
      = .ok ⟨[("b", ⟨.cls "int", some (.intV 1), none⟩)], none⟩ ∧
    propKeys ⟨[("b", ⟨.cls "int", some (.intV 1), none⟩)], none⟩ = ["b"] :=
  ⟨rfl, rfl⟩

/-- C1, amended: for every callable and every exclude set, a successful wrap
never places an excluded parameter name in the schema's `required` field
(the excluded name does, however, remain a key of `properties` whenever
the parameter is analyzed at all, as the counterexample shows). -/
theorem c1_excluded_never_required {ps : List Param}
    {inc : Option (List String)} {ex : List String} {r : SchemaResult}
    {x : String} (h : convertParamsToSchema ps inc (some ex) = .ok r)
    (hx : x ∈ ex) : requiredContains r x = false := by
  obtain ⟨ho, _hinc, hloop⟩ := convert_ok_inv h
  exact convertLoop_req_excluded ps 0 inc [] r.properties r.required x hloop
    (overlap_false_not_mem ho hx) hx

/-- Witness for C1's amended theorem at `def f(b=1)`, `exclude = set(b)`. -/
theorem c1_witness :
    convertParamsToSchema [⟨"b", .positionalOrKeyword, .cls "int", some (.intV 1)⟩]
        none (some ["b"])
      = .ok ⟨[("b", ⟨.cls "int", some (.intV 1), none⟩)], none⟩ ∧
    "b" ∈ ["b"] ∧
    requiredContains ⟨[("b", ⟨.cls "int", some (.intV 1), none⟩)], none⟩ "b" = false :=
  ⟨rfl, by decide,
    @c1_excluded_never_required
      [⟨"b", .positionalOrKeyword, .cls "int", some (.intV 1)⟩] none ["b"]
      ⟨[("b", ⟨.cls "int", some (.intV 1), none⟩)], none⟩ "b" rfl (by decide)⟩

/-! ### C2 -/

/-- C2, the code evaluated at the claim's input: for a callable with
signature `(a, b=1)` and both `include` and `exclude` left `None`, the
decorator does not produce the described schema — it raises `TypeError`
at `p_name not in required_params` because `required_params` is the
`include` argument, i.e. `None`.  The source's own docstring example
(`get_current_weather`, wrapped without `include`) hits the same raise,
so the claimed behaviour is the documented intent and the code is the
slip (`required_params = include` instead of `include or set()`). -/
theorem c2_code_raises :
    mkWrapper
      (⟨"f", none,
        [⟨"a", .positionalOrKeyword, .cls "str", none⟩,
         ⟨"b", .positionalOrKeyword, .cls "int", some (.intV 1)⟩]⟩ : FuncMeta)
      (fun _ : Unit => (.ok 0 : Except PyErr Int)) none none none
      = .error .typeError := rfl

/-! ### C3 -/

/-- C3: for every callable with at least one analyzed (non-skipped)
parameter lacking a default, applying the decorator with `include` and
`exclude` left at their default `None` raises `TypeError` from the
membership test against `None` — for the synchronous and the
asynchronous wrapper alike — instead of producing a schema. -/
theorem c3_none_defaults_typeError {α β γ δ : Type}
    (m : FuncMeta) (f : α → Except PyErr β) (g : γ → Pending δ)
    (d : Option String) (h : hasRequiredAnalyzed m.params = true) :
    mkWrapper m f d none none = .error .typeError ∧
    mkAsyncWrapper m g d none none = .error .typeError :=
  mkWrapper_error f g d (convert_none_none_typeError h)

/-- Witness for C3 at `def f(a): ...`. -/
theorem c3_witness :
    hasRequiredAnalyzed [⟨"a", .positionalOrKeyword, .cls "str", none⟩] = true ∧
    mkWrapper (⟨"f", none, [⟨"a", .positionalOrKeyword, .cls "str", none⟩]⟩ : FuncMeta)
        (fun _ : Unit => (.ok 0 : Except PyErr Int)) none none none
      = .error .typeError ∧
    mkAsyncWrapper (⟨"f", none, [⟨"a", .positionalOrKeyword, .cls "str", none⟩]⟩ : FuncMeta)
        (fun _ : Unit => ((fun _ => .ok 0) : Pending Int)) none none none
      = .error .typeError :=
  ⟨rfl, c3_none_defaults_typeError _ _ _ none rfl⟩

/-! ### C4 -/

/-- C4, counterexample: for `def f(**kwargs)` wrapped with
`include = set(kwargs)`, the wrap succeeds, `kwargs` passes the include
existence check (it is a declared parameter), but the analyzer skips the
variadic parameter — so `required` contains `kwargs` while `properties`
is empty, violating the claimed invariant that every required name is a
key of `properties`. -/
theorem c4_counterexample :
    convertParamsToSchema [⟨"kwargs", .varKeyword, .empty, none⟩]
      (some ["kwargs"]) none
      = .ok ⟨[], some ["kwargs"]⟩ ∧
    requiredContains ⟨[], some ["kwargs"]⟩ "kwargs" = true ∧
    propKeys ⟨[], some ["kwargs"]⟩ = [] :=
  ⟨rfl, rfl, rfl⟩

/-- C4, amended: on every successful wrap, every name in the schema's
`required` field is a declared parameter name of the callable (the
include existence check guarantees this for include-supplied names), and
every required name that does not come from `include` is a key of
`properties`; but an include-listed name whose parameter the analyzer
skips — a variadic collector or a first `self`/`cls` receiver — appears
in `required` without appearing in `properties`. -/
theorem c4_required_names_declared {ps : List Param}
    {inc exc : Option (List String)} {r : SchemaResult} {x : String}
    (h : convertParamsToSchema ps inc exc = .ok r)
    (hx : requiredContains r x = true) :
    x ∈ ps.map Param.name ∧ (memOpt x inc = false → x ∈ propKeys r) := by
  obtain ⟨_ho, hinc, hloop⟩ := convert_ok_inv h
  have hprops := convertLoop_props ps 0 inc [] r.properties r.required hloop
  rcases convertLoop_req_origin ps 0 inc [] r.properties r.required x hloop hx
    with h1 | h1
  · constructor
    · have hxin : x ∈ inc.getD [] := by simpa [memOpt] using h1
      rcases List.any_eq_true.mp (hinc x hxin) with ⟨p, hp, hpx⟩
      have hpn : p.name = x := by simpa using hpx
      exact hpn ▸ List.mem_map_of_mem Param.name hp
    · intro hfalse
      rw [h1] at hfalse
      cases hfalse
  · constructor
    · exact analyzedFrom_names ps 0 x h1
    · intro _
      simp only [propKeys, hprops, List.nil_append]
      exact h1

/-- Witness for C4's amended theorem at `def f(a)`, `include = set()`,
`exclude = set()`. -/
theorem c4_witness :
    convertParamsToSchema [⟨"a", .positionalOrKeyword, .cls "str", none⟩]
        (some []) (some [])
      = .ok ⟨[("a", ⟨.cls "str", none, none⟩)], some ["a"]⟩ ∧
    requiredContains ⟨[("a", ⟨.cls "str", none, none⟩)], some ["a"]⟩ "a" = true ∧
    ("a" ∈ ["a"] ∧
      (memOpt "a" (some ([] : List String)) = false →
        "a" ∈ propKeys ⟨[("a", ⟨.cls "str", none, none⟩)], some ["a"]⟩)) :=
  ⟨rfl, rfl, by
    have := @c4_required_names_declared
      [⟨"a", .positionalOrKeyword, .cls "str", none⟩]
      (some []) (some [])
      ⟨[("a", ⟨.cls "str", none, none⟩)], some ["a"]⟩ "a" rfl rfl
    simpa using this⟩

/-! ### C5 -/

/-- C5, counterexample: for `def f(a)` wrapped with `include = set(a)`, the
wrap succeeds but the `required` entry of the schema dict is the Python
set object `required_params` itself — not a JSON list — because of
`schema["required"] = required_params`; consequently the `parameters`
object is not JSON-serializable, contradicting the claimed bit-exact
`required: [...names...]` shape. -/
theorem c5_counterexample :
    convertParamsToSchema [⟨"a", .positionalOrKeyword, .cls "str", none⟩]
      (some ["a"]) none
      = .ok ⟨[("a", ⟨.cls "str", none, none⟩)], some ["a"]⟩ ∧
    lookupKey "required" (schemaToObj ⟨[("a", ⟨.cls "str", none, none⟩)], some ["a"]⟩)
      = some (.pset ["a"]) ∧
    isPyList (.pset ["a"]) = false ∧
    jsonSerializable (schemaToObj ⟨[("a", ⟨.cls "str", none, none⟩)], some ["a"]⟩)
      = false := by
  refine ⟨rfl, rfl, rfl, ?_⟩
  simp [schemaToObj, jsonSerializable_pdict, requiredToObj, propertyToObj,
    annJson, jsonSerializable]

/-- C5, amended: on every successful wrap the attached schema's
`parameters` object is a dict with a `properties` map and a `required`
field and no top-level `title` key — but `required` holds the Python set
of required names (or `None`), not a list of strings, so the object is
JSON-serializable only in the degenerate case where `required` is
`None`. -/
theorem c5_schema_shape {α β : Type} {m : FuncMeta} {f : α → Except PyErr β}
    {d : Option String} {inc exc : Option (List String)} {w : Wrapper α β}
    (_h : mkWrapper m f d inc exc = .ok w) :
    lookupKey "title" (schemaToObj w.gpt_func.parameters) = none ∧
    lookupKey "required" (schemaToObj w.gpt_func.parameters)
      = some (requiredToObj w.gpt_func.parameters.required) ∧
    jsonSerializable (schemaToObj w.gpt_func.parameters)
      = w.gpt_func.parameters.required.isNone := by
  refine ⟨rfl, rfl, ?_⟩
  have hprops : jsonSerializable (.pdict (w.gpt_func.parameters.properties.map
      (fun kv => (kv.1, propertyToObj kv.2)))) = true := by
    rw [jsonSerializable_pdict, List.all_eq_true]
    intro kv hkv
    rcases List.mem_map.mp hkv with ⟨kv0, _, rfl⟩
    exact propertyToObj_serializable kv0.2
  cases hreq : w.gpt_func.parameters.required with
  | none =>
    simp [schemaToObj, jsonSerializable_pdict, hreq, requiredToObj, hprops,
      jsonSerializable]
  | some l =>
    simp [schemaToObj, jsonSerializable_pdict, hreq, requiredToObj,
      jsonSerializable]

/-- Witness for C5's amended theorem at `def f(a)`, `include = set(a)`. -/
theorem c5_witness :
    mkWrapper (⟨"f", none, [⟨"a", .positionalOrKeyword, .cls "str", none⟩]⟩ : FuncMeta)
        (fun _ : Unit => (.ok 0 : Except PyErr Int)) none (some ["a"]) none
      = .ok ⟨fun _ : Unit => (.ok 0 : Except PyErr Int),
          ⟨"f", "f", ⟨[("a", ⟨.cls "str", none, none⟩)], some ["a"]⟩⟩⟩ ∧
    (lookupKey "title" (schemaToObj ⟨[("a", ⟨.cls "str", none, none⟩)], some ["a"]⟩)
        = none ∧
      lookupKey "required" (schemaToObj ⟨[("a", ⟨.cls "str", none, none⟩)], some ["a"]⟩)
        = some (requiredToObj (some ["a"])) ∧
      jsonSerializable (schemaToObj ⟨[("a", ⟨.cls "str", none, none⟩)], some ["a"]⟩)
        = (some ["a"] : Option (List String)).isNone) :=
  ⟨rfl, @c5_schema_shape Unit Int
    (⟨"f", none, [⟨"a", .positionalOrKeyword, .cls "str", none⟩]⟩ : FuncMeta)
    (fun _ : Unit => (.ok 0 : Except PyErr Int)) none (some ["a"]) none
    ⟨fun _ : Unit => (.ok 0 : Except PyErr Int),
      ⟨"f", "f", ⟨[("a", ⟨.cls "str", none, none⟩)], some ["a"]⟩⟩⟩ rfl⟩

/-! ### C6 -/

/-- C6: on every successful wrap, invoking the wrapper forwards the
argument tuple to the original callable unchanged and returns its exact
result (or raised error): the synchronous wrapper returns
`self.func(*args, **kwargs)` directly, and the asynchronous wrapper's
call, once awaited, yields exactly what awaiting the original callable's
own coroutine yields. -/
theorem c6_pass_through {α β : Type} {m ma : FuncMeta}
    {f : α → Except PyErr β} {g : α → Pending β} {d da : Option String}
    {inc exc inca exca : Option (List String)}
    {w : Wrapper α β} {aw : AsyncWrapper α β}
    (hw : mkWrapper m f d inc exc = .ok w)
    (ha : mkAsyncWrapper ma g da inca exca = .ok aw) (a : α) :
    Wrapper.call w a = f a ∧
    awaitP (AsyncWrapper.call aw a) = awaitP (g a) := by
  constructor
  · have hf : w.func = f := by
      unfold mkWrapper at hw
      cases hc : convertToGptFunc m d inc exc with
      | error e => rw [hc] at hw; simp at hw
      | ok gf => rw [hc] at hw; cases hw; rfl
    rw [Wrapper.call, hf]
  · have hg : aw.func = g := by
      unfold mkAsyncWrapper at ha
      cases hc : convertToGptFunc ma da inca exca with
      | error e => rw [hc] at ha; simp at ha
      | ok gf => rw [hc] at ha; cases ha; rfl
    show awaitP (aw.func a) = awaitP (g a)
    rw [hg]

/-- Witness for C6 at zero-parameter sync and async callables. -/
theorem c6_witness :
    mkWrapper (⟨"f", none, []⟩ : FuncMeta)
        (fun _ : Unit => (.ok 3 : Except PyErr Nat)) none none none
      = .ok ⟨fun _ : Unit => (.ok 3 : Except PyErr Nat), ⟨"f", "f", ⟨[], none⟩⟩⟩ ∧
    mkAsyncWrapper (⟨"g", none, []⟩ : FuncMeta)
        (fun _ : Unit => ((fun _ => .ok 4) : Pending Nat)) none none none
      = .ok ⟨fun _ : Unit => ((fun _ => .ok 4) : Pending Nat), ⟨"g", "g", ⟨[], none⟩⟩⟩ ∧
    (Wrapper.call ⟨fun _ : Unit => (.ok 3 : Except PyErr Nat), ⟨"f", "f", ⟨[], none⟩⟩⟩ ()
        = (fun _ : Unit => (.ok 3 : Except PyErr Nat)) () ∧
      awaitP (AsyncWrapper.call
          ⟨fun _ : Unit => ((fun _ => .ok 4) : Pending Nat), ⟨"g", "g", ⟨[], none⟩⟩⟩ ())
        = awaitP ((fun _ : Unit => ((fun _ => .ok 4) : Pending Nat)) ())) :=
  ⟨rfl, rfl, @c6_pass_through Unit Nat (⟨"f", none, []⟩ : FuncMeta)
    (⟨"g", none, []⟩ : FuncMeta) (fun _ : Unit => (.ok 3 : Except PyErr Nat))
    (fun _ : Unit => ((fun _ => .ok 4) : Pending Nat)) none none none none none none
    ⟨fun _ : Unit => (.ok 3 : Except PyErr Nat), ⟨"f", "f", ⟨[], none⟩⟩⟩
    ⟨fun _ : Unit => ((fun _ => .ok 4) : Pending Nat), ⟨"g", "g", ⟨[], none⟩⟩⟩
    rfl rfl ()⟩

/-! ### C7 -/

/-- C7: whenever `include` and `exclude` share a member, applying the
decorator (sync or async) raises `ValueError` from the guard that is the
first statement of `_convert_params_to_schema` — before the include
existence check runs and before any part of the schema is built; the
error result shows no wrapper and no schema were constructed. -/
theorem c7_overlap_valueError {α β γ δ : Type} (m : FuncMeta)
    (f : α → Except PyErr β) (g : γ → Pending δ) (d : Option String)
    {inc exc : List String} {x : String}
    (hxi : x ∈ inc) (hxe : x ∈ exc) :
    mkWrapper m f d (some inc) (some exc) = .error .valueError ∧
    mkAsyncWrapper m g d (some inc) (some exc) = .error .valueError := by
  apply mkWrapper_error
  have h1 : inc.isEmpty = false := by
    cases inc with
    | nil => cases hxi
    | cons a t => rfl
  have h2 : exc.isEmpty = false := by
    cases exc with
    | nil => cases hxe
    | cons a t => rfl
  have h3 : inc.any (fun y => exc.contains y) = true :=
    List.any_eq_true.mpr ⟨x, hxi, by simpa using hxe⟩
  have ho : overlapCheck (some inc) (some exc) = true := by
    simp only [overlapCheck, h1, h2, h3]
    rfl
  simp [convertParamsToSchema, ho]

/-- Witness for C7 at `include = exclude = set(b)`. -/
theorem c7_witness :
    "b" ∈ ["b"] ∧
    mkWrapper (⟨"f", none, []⟩ : FuncMeta)
        (fun _ : Unit => (.ok 0 : Except PyErr Int)) none (some ["b"]) (some ["b"])
      = .error .valueError ∧
    mkAsyncWrapper (⟨"f", none, []⟩ : FuncMeta)
        (fun _ : Unit => ((fun _ => .ok 0) : Pending Int)) none (some ["b"]) (some ["b"])
      = .error .valueError :=
  ⟨by decide, @c7_overlap_valueError Unit Int Unit Int (⟨"f", none, []⟩ : FuncMeta)
    (fun _ : Unit => (.ok 0 : Except PyErr Int))
    (fun _ : Unit => ((fun _ => .ok 0) : Pending Int)) none ["b"] ["b"] "b"
    (by decide) (by decide)⟩

/-! ### C8 -/

/-- C8: whenever `include` names a parameter absent from the callable's
signature (and the overlap guard does not fire first), applying the
decorator raises `AttributeError` synchronously at wrap time, for the
sync and async wrapper alike: the error comes from the include existence
check inside `_Wrapper.__init__`'s eager schema construction, so the
decorator is never applied and nothing is deferred to a first call. -/
theorem c8_include_not_found {α β γ δ : Type} (m : FuncMeta)
    (f : α → Except PyErr β) (g : γ → Pending δ) (d : Option String)
    {inc : List String} {exc : Option (List String)} {x : String}
    (ho : overlapCheck (some inc) exc = false)
    (hxi : x ∈ inc) (hx : x ∉ m.params.map Param.name) :
    mkWrapper m f d (some inc) exc = .error .attributeError ∧
    mkAsyncWrapper m g d (some inc) exc = .error .attributeError := by
  apply mkWrapper_error
  have hpred : (!(m.params.any (fun p => p.name == x))) = true := by
    rw [Bool.not_eq_true']
    rw [List.any_eq_false]
    intro p hp hpn
    have : p.name = x := by simpa using hpn
    exact hx (this ▸ List.mem_map_of_mem Param.name hp)
  have hsome : (inc.find? (fun y => !(m.params.any (fun p => p.name == y)))).isSome := by
    rw [List.find?_isSome]
    exact ⟨x, hxi, hpred⟩
  rcases Option.isSome_iff_exists.mp hsome with ⟨y, hy⟩
  unfold convertParamsToSchema
  rw [ho]
  simp only [Bool.false_eq_true, if_false, Option.getD_some]
  rw [hy]

/-- Witness for C8 at `def f()` with `include = set(zzz)`. -/
theorem c8_witness :
    overlapCheck (some ["zzz"]) none = false ∧
    "zzz" ∈ ["zzz"] ∧
    "zzz" ∉ ([] : List Param).map Param.name ∧
    mkWrapper (⟨"f", none, []⟩ : FuncMeta)
        (fun _ : Unit => (.ok 0 : Except PyErr Int)) none (some ["zzz"]) none
      = .error .attributeError ∧
    mkAsyncWrapper (⟨"f", none, []⟩ : FuncMeta)
        (fun _ : Unit => ((fun _ => .ok 0) : Pending Int)) none (some ["zzz"]) none
      = .error .attributeError :=
  ⟨rfl, by decide, by decide,
    @c8_include_not_found Unit Int Unit Int (⟨"f", none, []⟩ : FuncMeta)
      (fun _ : Unit => (.ok 0 : Except PyErr Int))
      (fun _ : Unit => ((fun _ => .ok 0) : Pending Int)) none ["zzz"] none "zzz"
      rfl (by decide) (by decide)⟩

/-! ### C9 -/

/-- C9: on every successful wrap, a parameter whose declared annotation is
an Enum class (and which is not a variadic collector — an enum-annotated
parameter can never be receiver-skipped, since `type(ann)` is `EnumMeta`,
not `type`) is emitted into `properties` with its type converted to the
closed `Literal` of the enum's member names, in definition order, rather
than an opaque reference to the enum class. -/
theorem c9_enum_literal {ps : List Param} {inc exc : Option (List String)}
    {r : SchemaResult} {p : Param} {ms : List String}
    (h : convertParamsToSchema ps inc exc = .ok r)
    (hp : p ∈ ps) (hann : p.ann = .enum ms)
    (h1 : p.kind ≠ ParamKind.varPositional)
    (h2 : p.kind ≠ ParamKind.varKeyword) :
    (p.name, (⟨.literalStr ms, p.default, none⟩ : Property)) ∈ r.properties := by
  obtain ⟨_, _, hloop⟩ := convert_ok_inv h
  have hprops := convertLoop_props ps 0 inc [] r.properties r.required hloop
  have hskip : ∀ i, skipParam i p = false := by
    intro i
    simp [skipParam, hann, PyAnn.isType, h1, h2]
  have hm := mem_analyzedFrom ps 0 p hp hskip
  have he : emitProperty p = ⟨.literalStr ms, p.default, none⟩ := by
    simp [emitProperty, hann]
  rw [hprops, List.nil_append, ← he]
  exact hm

/-- Witness for C9 at `def f(lvl: Level)` for an enum `Level` with members
`LOW, HIGH`, wrapped with `include = set(lvl)`. -/
theorem c9_witness :
    convertParamsToSchema [⟨"lvl", .positionalOrKeyword, .enum ["LOW", "HIGH"], none⟩]
        (some ["lvl"]) none
      = .ok ⟨[("lvl", ⟨.literalStr ["LOW", "HIGH"], none, none⟩)], some ["lvl"]⟩ ∧
    ("lvl", (⟨.literalStr ["LOW", "HIGH"], none, none⟩ : Property))
      ∈ [("lvl", (⟨.literalStr ["LOW", "HIGH"], none, none⟩ : Property))] :=
  ⟨rfl, @c9_enum_literal
    [⟨"lvl", .positionalOrKeyword, .enum ["LOW", "HIGH"], none⟩]
    (some ["lvl"]) none
    ⟨[("lvl", ⟨.literalStr ["LOW", "HIGH"], none, none⟩)], some ["lvl"]⟩
    ⟨"lvl", .positionalOrKeyword, .enum ["LOW", "HIGH"], none⟩ ["LOW", "HIGH"]
    rfl (by decide) rfl (by decide) (by decide)⟩

/-! ### C10 -/

/-- C10, three parts.  (1) A first parameter named exactly `self` or `cls`
whose declared annotation is a class is skipped: the schema's
`properties` is exactly what the remaining parameters alone produce.
(2) A first parameter literally named `self` but carrying a non-class
annotation (and not a variadic collector) is retained as the first
`properties` entry.  (3) The receiver skip applies only at position
zero: at every later index the skip test reduces to the variadic test
alone, whatever the name and annotation. -/
theorem c10_receiver_skip :
    (∀ (p : Param) (rest : List Param) (inc exc : Option (List String))
        (r : SchemaResult),
        (p.name = "self" ∨ p.name = "cls") → PyAnn.isType p.ann = true →
        convertParamsToSchema (p :: rest) inc exc = .ok r →
        r.properties = analyzedFrom 1 rest) ∧
    (∀ (p : Param) (rest : List Param) (inc exc : Option (List String))
        (r : SchemaResult),
        p.name = "self" → PyAnn.isType p.ann = false →
        p.kind ≠ ParamKind.varPositional → p.kind ≠ ParamKind.varKeyword →
        convertParamsToSchema (p :: rest) inc exc = .ok r →
        r.properties = (p.name, emitProperty p) :: analyzedFrom 1 rest) ∧
    (∀ (p : Param) (i : Nat), 0 < i →
        skipParam i p
          = (p.kind == ParamKind.varPositional || p.kind == ParamKind.varKeyword)) := by
  refine ⟨?_, ?_, ?_⟩
  · intro p rest inc exc r hname htype h
    obtain ⟨_, _, hloop⟩ := convert_ok_inv h
    have hprops := convertLoop_props (p :: rest) 0 inc [] r.properties r.required hloop
    have hskip : skipParam 0 p = true := by
      rcases hname with h1 | h1 <;> simp [skipParam, h1, htype]
    rw [hprops, List.nil_append]
    simp [analyzedFrom, hskip]
  · intro p rest inc exc r hname htype h1 h2 h
    obtain ⟨_, _, hloop⟩ := convert_ok_inv h
    have hprops := convertLoop_props (p :: rest) 0 inc [] r.properties r.required hloop
    have hskip : skipParam 0 p = false := by
      simp [skipParam, htype, h1, h2]
    rw [hprops, List.nil_append]
    simp [analyzedFrom, hskip]
  · intro p i hi
    have hne : (i == 0) = false := by
      simp [Nat.pos_iff_ne_zero.mp hi]
    simp [skipParam, hne]

/-- Witness for C10: a skipped `self: MyClass` receiver before `(a="x")`;
a retained `self` annotated `Annotated[str, "d"]` with default; and the
skip test at index 1 for a class-annotated `self`. -/
theorem c10_witness :
    (SchemaResult.properties ⟨[("a", ⟨.cls "str", some (.strV "x"), none⟩)], none⟩
        = analyzedFrom 1 [⟨"a", .positionalOrKeyword, .cls "str", some (.strV "x")⟩]) ∧
    (SchemaResult.properties
        ⟨[("self", ⟨.cls "str", some (.strV "x"), some "d"⟩)], none⟩
        = ("self", emitProperty ⟨"self", .positionalOrKeyword,
            .annotated (.cls "str") (.strM "d"), some (.strV "x")⟩)
          :: analyzedFrom 1 []) ∧
    (skipParam 1 ⟨"self", .positionalOrKeyword, .cls "C", none⟩
        = (ParamKind.positionalOrKeyword == ParamKind.varPositional
            || ParamKind.positionalOrKeyword == ParamKind.varKeyword)) :=
  ⟨c10_receiver_skip.1 ⟨"self", .positionalOrKeyword, .cls "MyClass", none⟩
      [⟨"a", .positionalOrKeyword, .cls "str", some (.strV "x")⟩] none none
      ⟨[("a", ⟨.cls "str", some (.strV "x"), none⟩)], none⟩ (Or.inl rfl) rfl rfl,
   c10_receiver_skip.2.1 ⟨"self", .positionalOrKeyword,
      .annotated (.cls "str") (.strM "d"), some (.strV "x")⟩ [] none none
      ⟨[("self", ⟨.cls "str", some (.strV "x"), some "d"⟩)], none⟩ rfl rfl
      (by decide) (by decide) rfl,
   c10_receiver_skip.2.2 ⟨"self", .positionalOrKeyword, .cls "C", none⟩ 1 (by decide)⟩

end GptDecorators
